import Mathlib

/-
Shallow embedding of the core of the Live-Streaming-of-Binance-Prices
repository (src/), together with theorems checking its specification.

Modules embedded:
  src/streams/handlers.py     (MessageHandler: calibration, staleness, parsing)
  src/streams/models.py       (Trade.from_raw)
  src/streams/manager.py      (WebSocketManager.start, _backoff_delay)
  src/streams/order_book_poller.py (rate-budget check, poll loop)
  src/storage/parquet_store.py (buffers, flush, failure re-queue)
  src/storage/base.py          (abstract store interface, as a method-name list)
  src/core/callbacks.py        (CallbackManager dispatch)
  src/core/config.py           (configuration dataclasses, as field-name lists)

Machine time is passed in explicitly (the Python code reads the wall clock);
Python floats are modelled as rationals; Python dict payloads are modelled as
structures of optional fields, where none stands for a missing key or a value
of the wrong type.
-/

namespace Binance

/-! ## Embedding of src/streams/models.py (Trade) -/

/-- Raw payload of a trade frame, dict with single-letter keys.  A field is
none when the key is missing or its value fails to parse (KeyError,
ValueError or TypeError in the Python source). -/
structure RawTrade where
  fieldE : Option Int
  fieldS : Option String
  fieldT : Option Int
  fieldP : Option Rat
  fieldQ : Option Rat
  fieldBigT : Option Int
  fieldM : Option Bool
  fieldB : Option Int
  fieldA : Option Int
deriving DecidableEq

/-- Typed trade event, src/streams/models.py lines 14-46. -/
structure Trade where
  event_time : Int
  symbol : String
  trade_id : Int
  price : Rat
  quantity : Rat
  trade_time : Int
  is_buyer_maker : Bool
  buyer_order_id : Option Int
  seller_order_id : Option Int
deriving DecidableEq

/-- Embedding of Trade.from_raw: reads the required keys E, s, t, p, q, T, m
(failure on any of them aborts the parse) and the optional keys b, a. -/
def Trade.from_raw (d : RawTrade) : Option Trade :=
  match d.fieldE, d.fieldS, d.fieldT, d.fieldP, d.fieldQ, d.fieldBigT, d.fieldM with
  | some e, some s, some t, some p, some q, some bigT, some m =>
      some ⟨e, s, t, p, q, bigT, m, d.fieldB, d.fieldA⟩
  | _, _, _, _, _, _, _ => none

/-! ## Embedding of src/streams/handlers.py (MessageHandler) -/

/-- State of MessageHandler (handlers.py lines 25-32). -/
structure MessageHandler where
  staleThresholdMs : Int
  clockOffsetMs : Option Int
  calibrationSamples : List Int
  calibrated : Bool
deriving DecidableEq

/-- Constructor MessageHandler.__init__ (handlers.py lines 28-32). -/
def MessageHandler.init (staleThresholdMs : Int) : MessageHandler :=
  ⟨staleThresholdMs, none, [], false⟩

/-- Embedding of MessageHandler._calibrate (handlers.py lines 34-47): append
the sample local_now - event_time; once 5 samples exist, sort them in place
and freeze the middle element (index 2) as the clock offset. -/
def MessageHandler.calibrate (h : MessageHandler) (nowMs eventTimeMs : Int) :
    MessageHandler :=
  let sample := nowMs - eventTimeMs
  let samples := h.calibrationSamples ++ [sample]
  if 5 ≤ samples.length then
    let sorted := samples.insertionSort (· ≤ ·)
    { h with
        calibrationSamples := sorted
        clockOffsetMs := some (sorted.getD 2 0)
        calibrated := true }
  else
    { h with calibrationSamples := samples }

/-- Embedding of MessageHandler._is_stale (handlers.py lines 49-55): before
calibration, record a sample and return false; afterwards compare the
offset-adjusted age with the staleness threshold.  Returns the verdict and
the updated handler state. -/
def MessageHandler.isStale (h : MessageHandler) (nowMs eventTimeMs : Int) :
    Bool × MessageHandler :=
  if h.calibrated = false then
    (false, h.calibrate nowMs eventTimeMs)
  else
    let adjustedAge := (nowMs - eventTimeMs) - h.clockOffsetMs.getD 0
    (decide (h.staleThresholdMs < adjustedAge), h)

/-- Embedding of MessageHandler.reset (handlers.py lines 61-65). -/
def MessageHandler.reset (h : MessageHandler) : MessageHandler :=
  { h with clockOffsetMs := none, calibrationSamples := [], calibrated := false }

/-- Outcome of one parse_ call of the handler: a typed event, a drop because
the event is stale (the warning-log path), or a drop because a field failed
to parse (the error-log path).  The Python source returns None in the last
two cases and distinguishes them only by the log entry. -/
inductive ParseOutcome (α : Type) where
  | ok (a : α)
  | staleDropped
  | parseFailed
deriving DecidableEq

/-- Embedding of MessageHandler.parse_trade (handlers.py lines 67-80): read
key E (KeyError aborts the parse), run the staleness gate, then build the
Trade from the raw fields. -/
def MessageHandler.parseTrade (h : MessageHandler) (nowMs : Int) (d : RawTrade) :
    ParseOutcome Trade × MessageHandler :=
  match d.fieldE with
  | none => (.parseFailed, h)
  | some eventTime =>
    let res := h.isStale nowMs eventTime
    if res.1 then
      (.staleDropped, res.2)
    else
      match Trade.from_raw d with
      | some t => (.ok t, res.2)
      | none => (.parseFailed, res.2)

/-- A run of the handler over timestamped events: each list entry is the pair
(local receive time, server event time) of one event that reaches the
staleness gate, in arrival order. -/
def MessageHandler.observe (h : MessageHandler) : List (Int × Int) → MessageHandler
  | [] => h
  | e :: rest => ((h.isStale e.1 e.2).2).observe rest

/-- Calibration samples induced by a list of (local time, event time) pairs. -/
def samplesOf (events : List (Int × Int)) : List Int :=
  events.map (fun e => e.1 - e.2)

/-- Modelled from the spec: the statistical median of five samples, namely
the middle (index 2) element of the ascending sort. -/
def statMedian5 (l : List Int) : Int :=
  (l.insertionSort (· ≤ ·)).getD 2 0

/-! ## Embedding of src/storage/parquet_store.py (one buffer, flush, re-queue)

Records are modelled abstractly as naturals (the store appends opaque
dictionary snapshots).  A single stream type is modelled; the per-type
buffers of the store are independent of each other. -/

/-- State of one per-stream-type buffer of ParquetStore: the pending records
and the list of successfully written batches. -/
structure BufferState where
  buffer : List Nat
  written : List (List Nat)
deriving DecidableEq

/-- Operations on one buffer.  append is store_x appending one record
(parquet_store.py lines 48-58).  flush mid ok is ParquetStore._flush (lines
93-108): mid lists the records appended by store_x calls that land between
the buffer swap and the completion of the write, and ok tells whether the
write step (asyncio.to_thread(self._sync_write, ...)) succeeded. -/
inductive BufOp where
  | append (r : Nat)
  | flush (mid : List Nat) (ok : Bool)
deriving DecidableEq

/-- Embedding of one step of the store.  _flush returns early on an empty
buffer (line 95-96), in which case the interleaved appends simply land in the
buffer; otherwise it swaps the buffer for an empty one (line 99), and on a
failed write prepends the swapped-out records back in front of whatever
accumulated since the swap (line 107). -/
def applyBufOp (s : BufferState) : BufOp → BufferState
  | .append r => { s with buffer := s.buffer ++ [r] }
  | .flush mid ok =>
      if s.buffer = [] then
        { s with buffer := mid }
      else if ok then
        { buffer := mid, written := s.written ++ [s.buffer] }
      else
        { buffer := s.buffer ++ mid, written := s.written }

/-- Run a sequence of buffer operations from a starting state. -/
def runBufOps (s : BufferState) (ops : List BufOp) : BufferState :=
  ops.foldl applyBufOp s

/-- Number of records appended by one operation (interleaved appends of a
flush window included). -/
def opAppendCount : BufOp → Nat
  | .append _ => 1
  | .flush mid _ => mid.length

/-- Total number of successfully written records in a state. -/
def writtenCount (s : BufferState) : Nat :=
  (s.written.map List.length).sum

/-! ## Embedding of the store interface surface (parquet_store.py, base.py,
main.py) for the coverage claim -/

/-- Abstract async store_ methods declared in BaseStore
(src/storage/base.py lines 17-36), in declaration order. -/
def baseStoreStoreMethods : List String :=
  ["store_trade", "store_agg_trade", "store_kline", "store_book_ticker",
   "store_depth_snapshot", "store_depth_update", "store_order_book_snapshot"]

/-- The store_ methods that ParquetStore actually defines
(src/storage/parquet_store.py lines 48-58). -/
def parquetStoreStoreMethods : List String :=
  ["store_trade", "store_agg_trade", "store_kline"]

/-- Keys of the self._buffers dict built in ParquetStore.__init__
(src/storage/parquet_store.py lines 37-41). -/
def parquetStoreBufferKeys : List String :=
  ["trade", "agg_trade", "kline"]

/-- Storage handler registrations performed by main._run when storage is
enabled (src/main.py lines 121-127), as the names of the bound store methods
in registration order. -/
def mainStorageRegistrations : List String :=
  ["store_trade", "store_agg_trade", "store_kline", "store_book_ticker",
   "store_depth_snapshot", "store_depth_update", "store_order_book_snapshot"]

/-- The whole buffers dict of ParquetStore, as an association list from
stream-type key to pending records. -/
structure ParquetBuffers where
  buffers : List (String × List Nat)
deriving DecidableEq

/-- Initial buffers dict of ParquetStore.__init__ (lines 37-41). -/
def initParquetBuffers : ParquetBuffers :=
  ⟨[("trade", []), ("agg_trade", []), ("kline", [])]⟩

/-- The store operations ParquetStore exposes: exactly one per defined
store_ method; there is no operation for book ticker, partial depth
snapshot, depth update or full order-book snapshot records. -/
inductive StoreOp where
  | storeTrade (r : Nat)
  | storeAggTrade (r : Nat)
  | storeKline (r : Nat)
deriving DecidableEq

/-- Append a record to the buffer held under a key of the dict. -/
def appendUnder (bufs : List (String × List Nat)) (key : String) (r : Nat) :
    List (String × List Nat) :=
  bufs.map (fun kv => if kv.1 = key then (kv.1, kv.2 ++ [r]) else kv)

/-- Embedding of the three store_ methods (parquet_store.py lines 48-58),
restricted to their buffer appends. -/
def applyStoreOp (s : ParquetBuffers) : StoreOp → ParquetBuffers
  | .storeTrade r => ⟨appendUnder s.buffers "trade" r⟩
  | .storeAggTrade r => ⟨appendUnder s.buffers "agg_trade" r⟩
  | .storeKline r => ⟨appendUnder s.buffers "kline" r⟩

/-- Run a sequence of store operations. -/
def runStoreOps (s : ParquetBuffers) (ops : List StoreOp) : ParquetBuffers :=
  ops.foldl applyStoreOp s

/-! ## Embedding of src/streams/manager.py (backoff and the reconnect loop) -/

/-- Embedding of the capped part of WebSocketManager._backoff_delay
(manager.py lines 213-216): min(base * 2 ^ (attempt - 1), max_delay). -/
def cappedDelay (base maxDelay : Rat) (attempt : Nat) : Rat :=
  min (base * 2 ^ (attempt - 1)) maxDelay

/-- Embedding of WebSocketManager._backoff_delay (manager.py lines 211-218):
the capped delay plus the sampled jitter.  The call
random.uniform(0, delay * 0.1) is modelled by passing the sampled value in. -/
def backoffDelay (base maxDelay : Rat) (attempt : Nat) (jitter : Rat) : Rat :=
  cappedDelay base maxDelay attempt + jitter

/-- Range of random.uniform(0, delay * 0.1) at a given attempt. -/
def jitterInRange (base maxDelay : Rat) (attempt : Nat) (jitter : Rat) : Prop :=
  0 ≤ jitter ∧ jitter ≤ cappedDelay base maxDelay attempt * (1 / 10)

/-- Embedding of the per-failure decision of WebSocketManager.start
(manager.py lines 59-65): after a failed connect-and-listen cycle the
attempt counter is incremented; the loop breaks when max_attempts is truthy
(nonzero) and the counter strictly exceeds it, else the incremented counter
is kept and another cycle runs.  none models the break. -/
def startStep (maxAttempts count : Nat) : Option Nat :=
  let c := count + 1
  if maxAttempts ≠ 0 ∧ maxAttempts < c then none else some c

/-- Number of connect-and-listen attempts made by WebSocketManager.start when
every cycle fails, starting from a given counter value, with fuel bounding
the run length (the loop has no intrinsic bound when max_attempts = 0). -/
def startLoopAttempts (maxAttempts : Nat) : Nat → Nat → Nat
  | 0, _ => 0
  | fuel + 1, count =>
      match startStep maxAttempts count with
      | none => 1
      | some c => 1 + startLoopAttempts maxAttempts fuel c

/-! ## Embedding of src/streams/order_book_poller.py -/

/-- Embedding of the module-level _LIMIT_WEIGHTS dict
(order_book_poller.py lines 29-32). -/
def limitWeights : List (Nat × Nat) :=
  [(5, 5), (10, 5), (20, 5), (50, 5), (100, 5),
   (500, 10), (1000, 20), (5000, 50)]

/-- Embedding of _LIMIT_WEIGHTS.get(self._limit, 50)
(order_book_poller.py line 56). -/
def limitWeight (limit : Nat) : Nat :=
  (limitWeights.lookup limit).getD 50

/-- Embedding of weight_per_min = (60 / interval) * weight
(order_book_poller.py lines 57-58). -/
def weightPerMin (limit : Nat) (intervalSeconds : Rat) : Rat :=
  60 / intervalSeconds * limitWeight limit

/-- Embedding of the startup warning condition of OrderBookPoller.start
(order_book_poller.py line 59): the high_rate_limit_usage warning is logged
exactly when weight_per_min > 1000. -/
def rateWarning (limit : Nat) (intervalSeconds : Rat) : Bool :=
  decide (1000 < weightPerMin limit intervalSeconds)

/-- Loop state of OrderBookPoller.start. -/
structure PollerState where
  running : Bool
  pollCount : Nat
deriving DecidableEq

/-- The poll loop of OrderBookPoller.start (order_book_poller.py lines
76-87) with fuel bounding the number of iterations: each iteration while
running performs one poll cycle. -/
def pollerLoop : Nat → PollerState → PollerState
  | 0, s => s
  | fuel + 1, s =>
      if s.running then pollerLoop fuel { s with pollCount := s.pollCount + 1 }
      else s

/-- Embedding of OrderBookPoller.start (order_book_poller.py lines 48-92):
compute the advisory warning, then run the poll loop; the warning is only
logged and is not an input of the loop. -/
def pollerStart (limit : Nat) (intervalSeconds : Rat) (fuel : Nat) :
    Bool × PollerState :=
  (rateWarning limit intervalSeconds, pollerLoop fuel ⟨true, 0⟩)

/-! ## Embedding of src/core/callbacks.py (CallbackManager._dispatch) -/

/-- Result of awaiting one registered callback on one event: normal return,
an exception caught by the except Exception arm, or asyncio.CancelledError. -/
inductive CallbackOutcome where
  | ok
  | failed
  | cancelled
deriving DecidableEq

/-- A registered async callback: its identity (cb.__name__) and its
behaviour on each event, events being modelled abstractly as naturals. -/
structure AsyncCallback where
  name : String
  run : Nat → CallbackOutcome

/-- Outcome of one CallbackManager._dispatch call: either it completes and
returns to its caller, or a CancelledError propagates out of it. -/
inductive DispatchOutcome where
  | completed (invoked : List String) (logged : List (String × String))
  | cancelledPropagated (invoked : List String)

/-- Embedding of the loop of CallbackManager._dispatch (callbacks.py lines
83-92): await each callback in registration order; re-raise CancelledError
(lines 89-90); log any other exception with the callback name and the
stream label and continue (lines 91-92).  Tracks the callbacks invoked and
the callback_error log entries emitted. -/
def dispatchAux (event : Nat) (label : String) :
    List AsyncCallback → List String → List (String × String) → DispatchOutcome
  | [], invoked, logged => .completed invoked logged
  | cb :: rest, invoked, logged =>
      match cb.run event with
      | .ok => dispatchAux event label rest (invoked ++ [cb.name]) logged
      | .failed =>
          dispatchAux event label rest (invoked ++ [cb.name])
            (logged ++ [(cb.name, label)])
      | .cancelled => .cancelledPropagated (invoked ++ [cb.name])

/-- Embedding of CallbackManager._dispatch over a registered callback list. -/
def dispatchRun (cbs : List AsyncCallback) (event : Nat) (label : String) :
    DispatchOutcome :=
  dispatchAux event label cbs [] []

/-! ## Embedding of src/core/config.py as field-name lists

The claim about the order-book-poll configuration is structural: it is about
which fields the configuration dataclasses declare and which fields the
poller and the entry point read.  The dataclasses are therefore embedded by
their field-name lists, taken from the source. -/

/-- Field names of the StreamsConfig dataclass
(src/core/config.py lines 46-53), in declaration order. -/
def streamsConfigFields : List String :=
  ["trade", "agg_trade", "kline", "book_ticker", "depth_snapshot",
   "depth_update"]

/-- Field names of the ConnectionConfig dataclass
(src/core/config.py lines 65-74), in declaration order. -/
def connectionConfigFields : List String :=
  ["base_url", "reconnect_delay_base", "reconnect_delay_max",
   "reconnect_max_attempts", "ping_interval", "ping_timeout",
   "message_timeout", "stale_threshold_ms"]

/-- Attributes of settings.streams read by OrderBookPoller.__init__
(order_book_poller.py lines 40-41: settings.streams.order_book_snapshot
.limit and .interval_seconds). -/
def pollerReadStreamsFields : List String :=
  ["order_book_snapshot"]

/-- Attributes of settings.connection read by OrderBookPoller.__init__
(order_book_poller.py line 42: settings.connection.rest_base_url). -/
def pollerReadConnectionFields : List String :=
  ["rest_base_url"]

/-- Attributes of settings.streams read by the entry point: main._run line
133 and _print_banner lines 86-87 read settings.streams.order_book_snapshot
(.enabled, .limit, .interval_seconds). -/
def mainReadStreamsFields : List String :=
  ["order_book_snapshot"]

/-! ## Helper lemmas -/

/-- Appending under one key leaves the key list of the buffers dict
unchanged. -/
theorem map_fst_appendUnder (key : String) (r : Nat) :
    ∀ bufs : List (String × List Nat),
      (appendUnder bufs key r).map Prod.fst = bufs.map Prod.fst
  | [] => rfl
  | kv :: rest => by
      have ih := map_fst_appendUnder key r rest
      by_cases hk : kv.1 = key <;> simp [appendUnder, hk] at ih ⊢ <;> exact ih

/-- Any run of store operations preserves the key list of the buffers dict. -/
theorem map_fst_runStoreOps :
    ∀ (ops : List StoreOp) (s : ParquetBuffers),
      (runStoreOps s ops).buffers.map Prod.fst = s.buffers.map Prod.fst
  | [], _ => rfl
  | op :: rest, s => by
      have step : (applyStoreOp s op).buffers.map Prod.fst =
          s.buffers.map Prod.fst := by
        cases op <;> simp [applyStoreOp, map_fst_appendUnder]
      have ih := map_fst_runStoreOps rest (applyStoreOp s op)
      simpa [runStoreOps, List.foldl_cons, step] using ih

/-- The poll loop performs one poll per unit of fuel while running. -/
theorem pollerLoop_running :
    ∀ (fuel count : Nat),
      pollerLoop fuel ⟨true, count⟩ = ⟨true, count + fuel⟩
  | 0, _ => rfl
  | fuel + 1, count => by
      have ih := pollerLoop_running fuel (count + 1)
      simp [pollerLoop, ih]
      omega

/-- Closed form of the all-failing reconnect loop below the ceiling. -/
theorem startLoopAttempts_closed :
    ∀ (fuel maxAttempts count : Nat), maxAttempts ≠ 0 → count ≤ maxAttempts →
      maxAttempts - count < fuel →
      startLoopAttempts maxAttempts fuel count = maxAttempts + 1 - count
  | 0, _, _, _, _, hf => by omega
  | fuel + 1, maxAttempts, count, h0, hc, hf => by
      by_cases heq : count = maxAttempts
      · subst heq
        simp [startLoopAttempts, startStep, h0]
      · have hlt : count < maxAttempts := lt_of_le_of_ne hc heq
        have ih := startLoopAttempts_closed fuel maxAttempts (count + 1) h0
          (by omega) (by omega)
        have hstep : startStep maxAttempts count = some (count + 1) := by
          simp [startStep]
          omega
        simp [startLoopAttempts, hstep, ih]
        omega

/-- With ceiling zero the reconnect loop never stops on its own. -/
theorem startLoopAttempts_unbounded :
    ∀ (fuel count : Nat), startLoopAttempts 0 fuel count = fuel
  | 0, _ => rfl
  | fuel + 1, count => by
      have ih := startLoopAttempts_unbounded fuel (count + 1)
      simp [startLoopAttempts, startStep, ih]
      omega

/-- One buffer operation changes the buffered-plus-written record count by
exactly the number of records it appends. -/
theorem total_applyBufOp (s : BufferState) (op : BufOp) :
    (applyBufOp s op).buffer.length + writtenCount (applyBufOp s op) =
      s.buffer.length + writtenCount s + opAppendCount op := by
  cases op with
  | append r => simp [applyBufOp, writtenCount, opAppendCount]; omega
  | flush mid ok =>
      by_cases hb : s.buffer = []
      · simp [applyBufOp, hb, writtenCount, opAppendCount]; omega
      · cases ok <;>
          simp [applyBufOp, hb, writtenCount, opAppendCount] <;> omega

/-- Record-count accounting over any run of buffer operations. -/
theorem total_runBufOps :
    ∀ (ops : List BufOp) (s : BufferState),
      (runBufOps s ops).buffer.length + writtenCount (runBufOps s ops) =
        s.buffer.length + writtenCount s + (ops.map opAppendCount).sum
  | [], s => by simp [runBufOps]
  | op :: rest, s => by
      have ih := total_runBufOps rest (applyBufOp s op)
      have step := total_applyBufOp s op
      simp only [runBufOps, List.foldl_cons, List.map_cons, List.sum_cons]
        at ih ⊢
      omega

/-- Sorting with insertionSort is invariant under permutation of the input. -/
theorem insertionSort_perm_congr {l l2 : List Int} (hp : List.Perm l l2) :
    l.insertionSort (· ≤ ·) = l2.insertionSort (· ≤ ·) :=
  List.eq_of_perm_of_sorted
    (((List.perm_insertionSort _ l).trans hp).trans
      (List.perm_insertionSort _ l2).symm)
    (List.sorted_insertionSort _ l) (List.sorted_insertionSort _ l2)

/-- A list of length five has exactly five elements. -/
theorem list_len5 {α : Type} {l : List α} (h : l.length = 5) :
    ∃ a b c d e, l = [a, b, c, d, e] := by
  rcases l with _ | ⟨a, _ | ⟨b, _ | ⟨c, _ | ⟨d, _ | ⟨e, _ | ⟨f, t⟩⟩⟩⟩⟩⟩ <;>
    simp only [List.length_cons, List.length_nil] at h <;>
    first
      | exact ⟨_, _, _, _, _, rfl⟩
      | omega

/-- Observing exactly five timestamped events from a fresh handler freezes
the clock offset at the middle element of the sorted samples. -/
theorem observe_five_offset (h : MessageHandler) (a b c d e : Int × Int) :
    ((h.reset).observe [a, b, c, d, e]).clockOffsetMs =
      some (statMedian5 (samplesOf [a, b, c, d, e])) := by
  simp [MessageHandler.observe, MessageHandler.isStale, MessageHandler.reset,
        MessageHandler.calibrate, statMedian5, samplesOf]

/-- A handler that has collected fewer than five samples stays uncalibrated
over any run of events that keeps the total below five. -/
theorem observe_uncalibrated :
    ∀ (events : List (Int × Int)) (h : MessageHandler),
      h.calibrated = false →
      h.calibrationSamples.length + events.length < 5 →
      (h.observe events).calibrated = false ∧
      (h.observe events).calibrationSamples.length =
        h.calibrationSamples.length + events.length
  | [], h, hc, _ => by simp [MessageHandler.observe, hc]
  | e :: rest, h, hc, hl => by
      have hlen : ¬ 4 ≤ h.calibrationSamples.length := by
        simp only [List.length_cons] at hl
        omega
      have hcal : (h.calibrate e.1 e.2).calibrated = false ∧
          (h.calibrate e.1 e.2).calibrationSamples.length =
            h.calibrationSamples.length + 1 := by
        simp [MessageHandler.calibrate, hlen, hc]
      have hstale : (h.isStale e.1 e.2).2 = h.calibrate e.1 e.2 := by
        simp [MessageHandler.isStale, hc]
      have ih := observe_uncalibrated rest (h.calibrate e.1 e.2) hcal.1 (by
        rw [hcal.2]
        simp only [List.length_cons] at hl
        omega)
      refine ⟨?_, ?_⟩ <;>
        (simp only [MessageHandler.observe, hstale, ih.1, ih.2, hcal.2,
           List.length_cons]
         all_goals omega)

/-- Dispatch over callbacks none of which raises CancelledError: every
callback is awaited in order and every failure is logged with the callback
name and the stream label. -/
theorem dispatchAux_no_cancel (event : Nat) (label : String) :
    ∀ (cbs : List AsyncCallback) (invoked : List String)
      (logged : List (String × String)),
      (∀ cb ∈ cbs, cb.run event ≠ CallbackOutcome.cancelled) →
      dispatchAux event label cbs invoked logged =
        DispatchOutcome.completed (invoked ++ cbs.map AsyncCallback.name)
          (logged ++ (cbs.filter
              (fun cb => decide (cb.run event = CallbackOutcome.failed))).map
            (fun cb => (cb.name, label)))
  | [], invoked, logged, _ => by simp [dispatchAux]
  | cb :: rest, invoked, logged, hnc => by
      have hrest := dispatchAux_no_cancel event label rest
      cases hcb : cb.run event with
      | ok =>
          have := hrest (invoked ++ [cb.name]) logged
            (fun c hc => hnc c (List.mem_cons_of_mem _ hc))
          simp [dispatchAux, hcb, this, List.filter_cons]
      | failed =>
          have := hrest (invoked ++ [cb.name]) (logged ++ [(cb.name, label)])
            (fun c hc => hnc c (List.mem_cons_of_mem _ hc))
          simp [dispatchAux, hcb, this, List.filter_cons]
      | cancelled => exact absurd hcb (hnc cb (List.mem_cons_self _ _))

/-! ## Claim theorems -/

/-- C1: the claim says the per-stream configuration includes an
order-book-poll entry streams.order_book_snapshot (enabled, limit,
interval_seconds) that the poller constructor and the entry point read.
The poller and the entry point do read that attribute (and the poller also
reads connection.rest_base_url), but the StreamsConfig and ConnectionConfig
dataclasses declare no such fields, so every such read raises
AttributeError at runtime. -/
theorem c1_order_book_config_missing :
    "order_book_snapshot" ∈ pollerReadStreamsFields ∧
    "order_book_snapshot" ∈ mainReadStreamsFields ∧
    "order_book_snapshot" ∉ streamsConfigFields ∧
    "rest_base_url" ∈ pollerReadConnectionFields ∧
    "rest_base_url" ∉ connectionConfigFields := by
  decide

/-- C2: ParquetStore implements exactly the trade, aggregated-trade and
kline store operations of the seven declared abstract in BaseStore, its
buffers dict holds exactly the keys trade, agg_trade and kline, the entry
point registers storage handlers for all seven event types, and no sequence
of the store operations that exist ever creates a buffer under any other
key. -/
theorem c2_parquet_store_partial_interface :
    baseStoreStoreMethods.filter
        (fun m => decide (m ∉ parquetStoreStoreMethods)) =
      ["store_book_ticker", "store_depth_snapshot", "store_depth_update",
       "store_order_book_snapshot"] ∧
    mainStorageRegistrations = baseStoreStoreMethods ∧
    initParquetBuffers.buffers.map Prod.fst = parquetStoreBufferKeys ∧
    ∀ ops : List StoreOp,
      (runStoreOps initParquetBuffers ops).buffers.map Prod.fst =
        parquetStoreBufferKeys := by
  refine ⟨by decide, by decide, by decide, fun ops => ?_⟩
  rw [map_fst_runStoreOps ops initParquetBuffers]
  decide

/-- C3 counterexample: at limit 1000 (weight 20) polled once per second the
projected usage is exactly 1200 per minute, which does not exceed the 1200
budget ceiling, yet the code logs the warning, because the source threshold
in OrderBookPoller.start is 1000, not 1200. -/
theorem c3_counterexample :
    weightPerMin 1000 1 = 1200 ∧
    ¬ (1200 : Rat) < weightPerMin 1000 1 ∧
    rateWarning 1000 1 = true := by
  have hw : limitWeight 1000 = 20 := by decide
  have hv : weightPerMin 1000 1 = 1200 := by
    rw [weightPerMin, hw]; norm_num
  exact ⟨hv, by rw [hv]; exact lt_irrefl _,
    decide_eq_true (by rw [hv]; norm_num)⟩

/-- C3 amended: the projected rate usage is requests_per_minute times
weight_for(limit) with the step table 5/10/20/50/100 to 5, 500 to 10,
1000 to 20, 5000 to 50, and the startup warning is logged exactly when the
projected usage exceeds 1000 per minute (a threshold below the 1200 budget
the warning reports); the warning is not an input of the poll loop, which
performs one poll per cycle regardless. -/
theorem c3_rate_budget_check :
    (limitWeight 5 = 5 ∧ limitWeight 10 = 5 ∧ limitWeight 20 = 5 ∧
     limitWeight 50 = 5 ∧ limitWeight 100 = 5 ∧ limitWeight 500 = 10 ∧
     limitWeight 1000 = 20 ∧ limitWeight 5000 = 50) ∧
    (∀ (limit : Nat) (intervalSeconds : Rat),
        rateWarning limit intervalSeconds = true ↔
          1000 < weightPerMin limit intervalSeconds) ∧
    (∀ (limit : Nat) (intervalSeconds : Rat) (fuel : Nat),
        (pollerStart limit intervalSeconds fuel).1 =
          rateWarning limit intervalSeconds ∧
        ((pollerStart limit intervalSeconds fuel).2).pollCount = fuel ∧
        ((pollerStart limit intervalSeconds fuel).2).running = true) := by
  refine ⟨by decide, fun limit i => ?_, fun limit i fuel => ?_⟩
  · exact decide_eq_true_iff
  · refine ⟨rfl, ?_, ?_⟩ <;> simp [pollerStart, pollerLoop_running]

/-- C9 counterexample: with ceiling 1, after the first failed
connect-and-listen cycle the incremented attempt count equals the ceiling,
yet start() schedules another cycle (startStep returns some 1), and an
all-failing run makes 2 connection attempts rather than terminating at 1. -/
theorem c9_counterexample :
    startStep 1 0 = some 1 ∧ startLoopAttempts 1 5 0 = 2 := by
  decide

/-- C9 amended: when every connect-and-listen cycle fails and the ceiling is
nonzero, start() terminates permanently as soon as the incremented attempt
count strictly exceeds the ceiling — so an all-failing run makes ceiling + 1
connection attempts — and a ceiling of 0 means retries are unbounded. -/
theorem c9_reconnect_ceiling :
    (∀ maxAttempts count : Nat,
        startStep maxAttempts count = none ↔
          maxAttempts ≠ 0 ∧ maxAttempts < count + 1) ∧
    (∀ maxAttempts fuel : Nat, maxAttempts ≠ 0 → maxAttempts < fuel →
        startLoopAttempts maxAttempts fuel 0 = maxAttempts + 1) ∧
    (∀ fuel count : Nat, startLoopAttempts 0 fuel count = fuel) := by
  refine ⟨fun maxAttempts count => ?_, fun maxAttempts fuel h0 hf => ?_,
    startLoopAttempts_unbounded⟩
  · by_cases hcond : maxAttempts ≠ 0 ∧ maxAttempts < count + 1 <;>
      simp [startStep, hcond]
  · have := startLoopAttempts_closed fuel maxAttempts 0 h0 (by omega) (by omega)
    simpa using this

/-- C9 witness: the amended theorem at ceiling 2 with 5 units of fuel (the
loop stops after 3 attempts) and at ceiling 0 with 4 units of fuel (the loop
never stops on its own). -/
theorem c9_reconnect_ceiling_witness :
    startStep 2 2 = none ∧ startLoopAttempts 2 5 0 = 3 ∧
    startLoopAttempts 0 4 7 = 4 := by
  refine ⟨(c9_reconnect_ceiling.1 2 2).mpr (by decide), ?_,
    c9_reconnect_ceiling.2.2 4 7⟩
  have := c9_reconnect_ceiling.2.1 2 5 (by decide) (by decide)
  simpa using this

/-- C4: under any sequence of appends, flushes and write failures, the
records left in the buffer plus all successfully written records equal the
total appended; a failed flush on a nonempty buffer prepends the swapped-out
records in front of the records appended since the swap, in original order;
and a successful flush writes the entire current buffer, so re-queued
records are included in the next successful flush. -/
theorem c4_flush_lossfree :
    (∀ ops : List BufOp,
        (runBufOps ⟨[], []⟩ ops).buffer.length +
            writtenCount (runBufOps ⟨[], []⟩ ops) =
          (ops.map opAppendCount).sum) ∧
    (∀ (r : Nat) (rest mid : List Nat) (w : List (List Nat)),
        applyBufOp ⟨r :: rest, w⟩ (.flush mid false) =
          ⟨r :: (rest ++ mid), w⟩) ∧
    (∀ (r : Nat) (rest mid : List Nat) (w : List (List Nat)),
        applyBufOp ⟨r :: rest, w⟩ (.flush mid true) =
          ⟨mid, w ++ [r :: rest]⟩) := by
  refine ⟨fun ops => ?_, fun r rest mid w => ?_, fun r rest mid w => ?_⟩
  · have := total_runBufOps ops ⟨[], []⟩
    simpa [writtenCount] using this
  · simp [applyBufOp]
  · simp [applyBufOp]

/-- C5: after a reset, the first five timestamped events calibrate the
handler, the frozen clock offset equals the statistical median of the five
samples local_receive_time - event_time, and the offset is invariant under
any permutation of the arrival order of the samples. -/
theorem c5_median_calibration (h : MessageHandler)
    (events events2 : List (Int × Int)) (h5 : events.length = 5)
    (hperm : List.Perm (samplesOf events) (samplesOf events2)) :
    (h.reset.observe events).clockOffsetMs =
      some (statMedian5 (samplesOf events)) ∧
    (h.reset.observe events).clockOffsetMs =
      (h.reset.observe events2).clockOffsetMs := by
  have hlen := hperm.length_eq
  simp only [samplesOf, List.length_map, h5] at hlen
  obtain ⟨a, b, c, d, e, rfl⟩ := list_len5 h5
  obtain ⟨a2, b2, c2, d2, e2, rfl⟩ := list_len5 hlen.symm
  refine ⟨observe_five_offset h a b c d e, ?_⟩
  rw [observe_five_offset h a b c d e, observe_five_offset h a2 b2 c2 d2 e2]
  simp only [statMedian5, insertionSort_perm_congr hperm]

/-- C5 witness: the theorem at a concrete five-event run and a concrete
permutation of it. -/
theorem c5_median_calibration_witness :
    ((MessageHandler.init 30000).reset.observe
        [(10, 1), (20, 2), (30, 3), (40, 4), (50, 5)]).clockOffsetMs =
      some (statMedian5
        (samplesOf [(10, 1), (20, 2), (30, 3), (40, 4), (50, 5)])) ∧
    ((MessageHandler.init 30000).reset.observe
        [(10, 1), (20, 2), (30, 3), (40, 4), (50, 5)]).clockOffsetMs =
      ((MessageHandler.init 30000).reset.observe
        [(30, 3), (10, 1), (50, 5), (20, 2), (40, 4)]).clockOffsetMs :=
  c5_median_calibration (MessageHandler.init 30000) _ _ (by decide) (by decide)

/-- C6: in every handler state reached by fewer than five timestamped events
since the last reset, the staleness check returns false for every event
regardless of its age, and no parse operation drops an event as stale. -/
theorem c6_no_stale_before_calibration (h : MessageHandler)
    (events : List (Int × Int)) (hlt : events.length < 5) :
    (∀ nowMs eventTimeMs : Int,
        ((h.reset.observe events).isStale nowMs eventTimeMs).1 = false) ∧
    (∀ (nowMs : Int) (d : RawTrade),
        ((h.reset.observe events).parseTrade nowMs d).1 ≠
          ParseOutcome.staleDropped) := by
  have hcal : (h.reset.observe events).calibrated = false :=
    (observe_uncalibrated events h.reset (by simp [MessageHandler.reset])
      (by simp [MessageHandler.reset]; omega)).1
  constructor
  · intro nowMs eventTimeMs
    simp [MessageHandler.isStale, hcal]
  · intro nowMs d
    cases hE : d.fieldE with
    | none => simp [MessageHandler.parseTrade, hE]
    | some et =>
        have hst : ((h.reset.observe events).isStale nowMs et).1 = false := by
          simp [MessageHandler.isStale, hcal]
        cases hfr : Trade.from_raw d <;>
          simp [MessageHandler.parseTrade, hE, hst, hfr]

/-- C6 witness: after one very old event since reset, a second very old
event is neither marked stale nor dropped as stale. -/
theorem c6_no_stale_before_calibration_witness :
    (((MessageHandler.init 30000).reset.observe
        [(0, -1000000)]).isStale 5000000 0).1 = false ∧
    (((MessageHandler.init 30000).reset.observe
        [(0, -1000000)]).parseTrade 5000000
        ⟨some (-2000000), some "BTCUSDT", some 1, some 100, some 1, some 0,
         some false, none, none⟩).1 ≠ ParseOutcome.staleDropped :=
  ⟨(c6_no_stale_before_calibration (MessageHandler.init 30000)
      [(0, -1000000)] (by decide)).1 5000000 0,
   (c6_no_stale_before_calibration (MessageHandler.init 30000)
      [(0, -1000000)] (by decide)).2 5000000 _⟩

/-- C7: once calibration is complete, an event carrying a server event-time
whose fields parse successfully is dropped as stale exactly when its
offset-adjusted age exceeds the staleness threshold, and forwarded as the
parsed trade otherwise. -/
theorem c7_calibrated_staleness (h : MessageHandler)
    (off nowMs eventTimeMs : Int) (d : RawTrade) (tr : Trade)
    (hcal : h.calibrated = true) (hoff : h.clockOffsetMs = some off)
    (hE : d.fieldE = some eventTimeMs) (hfr : Trade.from_raw d = some tr) :
    (h.staleThresholdMs < nowMs - eventTimeMs - off →
        (h.parseTrade nowMs d).1 = ParseOutcome.staleDropped) ∧
    (nowMs - eventTimeMs - off ≤ h.staleThresholdMs →
        (h.parseTrade nowMs d).1 = ParseOutcome.ok tr) := by
  constructor <;> intro hage
  · have hst : (h.isStale nowMs eventTimeMs).1 = true := by
      simp [MessageHandler.isStale, hcal, hoff]
      omega
    simp [MessageHandler.parseTrade, hE, hst]
  · have hst : (h.isStale nowMs eventTimeMs).1 = false := by
      simp [MessageHandler.isStale, hcal, hoff]
      omega
    simp [MessageHandler.parseTrade, hE, hst, hfr]

/-- C7 witness: a calibrated handler with offset 0 and threshold 1000 drops
the event at adjusted age 5000 and forwards it at adjusted age 500. -/
theorem c7_calibrated_staleness_witness :
    ((⟨1000, some 0, [0, 0, 0, 0, 0], true⟩ : MessageHandler).parseTrade 5000
        ⟨some 0, some "X", some 1, some 2, some 3, some 4, some true, none,
         none⟩).1 = ParseOutcome.staleDropped ∧
    ((⟨1000, some 0, [0, 0, 0, 0, 0], true⟩ : MessageHandler).parseTrade 500
        ⟨some 0, some "X", some 1, some 2, some 3, some 4, some true, none,
         none⟩).1 =
      ParseOutcome.ok ⟨0, "X", 1, 2, 3, 4, true, none, none⟩ :=
  ⟨(c7_calibrated_staleness ⟨1000, some 0, [0, 0, 0, 0, 0], true⟩ 0 5000 0
      ⟨some 0, some "X", some 1, some 2, some 3, some 4, some true, none, none⟩
      ⟨0, "X", 1, 2, 3, 4, true, none, none⟩ rfl rfl rfl rfl).1 (by decide),
   (c7_calibrated_staleness ⟨1000, some 0, [0, 0, 0, 0, 0], true⟩ 0 500 0
      ⟨some 0, some "X", some 1, some 2, some 3, some 4, some true, none, none⟩
      ⟨0, "X", 1, 2, 3, 4, true, none, none⟩ rfl rfl rfl rfl).2 (by decide)⟩

/-- C8: the reconnect delay equals min(base * 2 ^ (attempt - 1), max_delay)
plus a jitter in [0, one tenth of that capped value]; the capped delay is
monotonically non-decreasing in the attempt count and never exceeds
max_delay; the realized delay never exceeds max_delay * 1.1; and while the
next capped delay is still at or below max_delay, the realized delays are
non-decreasing even with adversarial jitter. -/
theorem c8_backoff_bounds (base maxDelay : Rat)
    (hb : 0 < base) (hm : 0 ≤ maxDelay) :
    (∀ (attempt : Nat) (jitter : Rat),
        backoffDelay base maxDelay attempt jitter =
          min (base * 2 ^ (attempt - 1)) maxDelay + jitter) ∧
    (∀ m n : Nat, m ≤ n →
        cappedDelay base maxDelay m ≤ cappedDelay base maxDelay n) ∧
    (∀ n : Nat, cappedDelay base maxDelay n ≤ maxDelay) ∧
    (∀ (n : Nat) (jitter : Rat), jitterInRange base maxDelay n jitter →
        backoffDelay base maxDelay n jitter ≤ maxDelay * (11 / 10)) ∧
    (∀ (n : Nat) (j j2 : Rat), 1 ≤ n →
        jitterInRange base maxDelay n j →
        jitterInRange base maxDelay (n + 1) j2 →
        base * 2 ^ n ≤ maxDelay →
        backoffDelay base maxDelay n j ≤
          backoffDelay base maxDelay (n + 1) j2) := by
  have hcap0 : ∀ n : Nat, 0 ≤ cappedDelay base maxDelay n := fun n =>
    le_min (by positivity) hm
  have hcapmax : ∀ n : Nat, cappedDelay base maxDelay n ≤ maxDelay :=
    fun n => min_le_right _ _
  refine ⟨fun attempt jitter => rfl, ?_, hcapmax, ?_, ?_⟩
  · intro m n hmn
    exact min_le_min
      (mul_le_mul_of_nonneg_left
        (pow_le_pow_right₀ (by norm_num) (Nat.sub_le_sub_right hmn 1)) hb.le)
      le_rfl
  · intro n jitter hj
    have h1 := hcapmax n
    have h2 := hcap0 n
    have h3 := hj.2
    have h4 := hj.1
    rw [backoffDelay]
    linarith
  · intro n j j2 hn hj hj2 hcap
    have e1 : cappedDelay base maxDelay n ≤ base * 2 ^ (n - 1) :=
      min_le_left _ _
    have he : base * 2 ^ (n - 1) * 2 = base * 2 ^ n := by
      rw [mul_assoc, ← pow_succ, Nat.sub_add_cancel hn]
    have e2 : cappedDelay base maxDelay (n + 1) = base * 2 ^ n := by
      rw [cappedDelay, Nat.add_sub_cancel]
      exact min_eq_left hcap
    have hb2 : (0 : Rat) ≤ base * 2 ^ (n - 1) := by positivity
    have h3 := hj.2
    have h4 := hj.1
    have h5 := hj2.1
    rw [backoffDelay, backoffDelay, e2]
    linarith

/-- C8 witness: the theorem at base 1, max delay 60: the jitter-free shape
at attempt 4, monotonicity from attempt 3 to 5, the cap at attempt 9, the
1.1-times-max bound at attempt 8 with maximal jitter 6, and realized
monotonicity from attempt 2 (maximal jitter) to attempt 3 (zero jitter). -/
theorem c8_backoff_bounds_witness :
    backoffDelay 1 60 4 2 = min ((1 : Rat) * 2 ^ (4 - 1)) 60 + 2 ∧
    cappedDelay 1 60 3 ≤ cappedDelay 1 60 5 ∧
    cappedDelay 1 60 9 ≤ 60 ∧
    backoffDelay 1 60 8 6 ≤ 60 * (11 / 10) ∧
    backoffDelay 1 60 2 (1 / 5) ≤ backoffDelay 1 60 3 0 :=
  have h := c8_backoff_bounds 1 60 (by norm_num) (by norm_num)
  ⟨h.1 4 2, h.2.1 3 5 (by norm_num), h.2.2.1 9,
   h.2.2.2.1 8 6 (by constructor <;> norm_num [cappedDelay, min_def]),
   h.2.2.2.2 2 (1 / 5) 0 (by norm_num)
     (by constructor <;> norm_num [cappedDelay, min_def])
     (by constructor <;> norm_num [cappedDelay, min_def])
     (by norm_num)⟩

/-- C10: when no registered callback raises a cancellation, a dispatch call
completes without raising to its caller, every callback is invoked in
registration order regardless of earlier failures, and every failing
callback is logged with its identity and the event-type label. -/
theorem c10_dispatch_isolation (cbs : List AsyncCallback) (event : Nat)
    (label : String)
    (hnc : ∀ cb ∈ cbs, cb.run event ≠ CallbackOutcome.cancelled) :
    dispatchRun cbs event label =
      DispatchOutcome.completed (cbs.map AsyncCallback.name)
        ((cbs.filter
            (fun cb => decide (cb.run event = CallbackOutcome.failed))).map
          (fun cb => (cb.name, label))) := by
  have := dispatchAux_no_cancel event label cbs [] [] hnc
  simpa [dispatchRun] using this

/-- C10 witness: a failing callback registered between two healthy ones is
logged with its name and the stream label, and both of the others still
receive the event; the dispatch completes. -/
theorem c10_dispatch_isolation_witness :
    dispatchRun
      [⟨"printer", fun _ => CallbackOutcome.ok⟩,
       ⟨"flaky", fun _ => CallbackOutcome.failed⟩,
       ⟨"store", fun _ => CallbackOutcome.ok⟩] 7 "trade" =
      DispatchOutcome.completed ["printer", "flaky", "store"]
        [("flaky", "trade")] := by
  have := c10_dispatch_isolation
    [⟨"printer", fun _ => CallbackOutcome.ok⟩,
     ⟨"flaky", fun _ => CallbackOutcome.failed⟩,
     ⟨"store", fun _ => CallbackOutcome.ok⟩] 7 "trade" (by decide)
  simpa using this

end Binance
